import Mathlib

/-!
Verification of the componentization core of `vibe-figma`
(`src/core/figma/componentization/component-extractor.ts`).

The JSX abstract tree produced by the Babel parser is embedded shallowly:

* `JNode` mirrors the children of a Babel `JSXElement` — nested elements,
  `JSXText`, and `JSXExpressionContainer` children (expression payloads are
  kept as opaque source strings, exactly as the extractor treats them).
* Node identity: the extractor compares nodes by JavaScript reference
  (`occurrences.includes(path.node)`, `path.node === node`).  We model a
  reference with an `Option Nat` tag: the parser hands every element a
  distinct `some`-tag, `t.cloneNode` (a deep copy, hence a fresh set of
  references) erases tags to `none`, and freshly constructed replacement
  nodes also carry `none`.  Reference equality is `some`-tag equality.
* `Stmt`/`Program` mirror the top-level Babel `Program` as far as the
  extractor inspects it: statements that own one JSX tree (a function
  declaration returning JSX, or an expression statement) and opaque
  statements, visited in order by `traverse`.
* The external `@babel/parser` and `@babel/generator` collaborators are not
  re-implemented: parsing is an input to the model (`extractComponents`
  receives the tree the parser produced), and the serializer is a plain
  printer standing in for `generate` (no claim below depends on the exact
  text of a rewritten output, only on the unchanged branch, which returns
  the original string without serializing).
-/

/-- Name of a JSX opening element: a plain identifier (`div`, `Button`) or a
member expression (`Foo.Bar`), the latter kept as its generated source. -/
inductive JSXName where
  | ident (s : String)
  | member (code : String)
deriving DecidableEq, Repr

/-- Value of a JSX attribute: absent (`<input disabled>`), a string literal,
or an expression container (payload kept as the generated source of the
container's inner expression). -/
inductive AttrValue where
  | empty
  | str (s : String)
  | exprC (code : String)
deriving DecidableEq, Repr

/-- A JSX attribute: a named attribute or a spread attribute. -/
inductive JSXAttr where
  | attr (name : String) (value : AttrValue)
  | spread (code : String)
deriving DecidableEq, Repr

/-- A JSX tree node: an element (with its reference tag, name, attributes,
children and self-closing flag), a text child, or an expression-container
child. -/
inductive JNode where
  | elem (id : Option Nat) (name : JSXName) (attrs : List JSXAttr)
      (children : List JNode) (selfClosing : Bool)
  | text (s : String)
  | exprChild (code : String)

mutual

/-- Decidable equality for `JNode` (hand-written: `deriving` does not handle
the nested `List JNode` field on this toolchain). -/
def decEqJNode : (a b : JNode) → Decidable (a = b)
  | .elem i1 n1 at1 ch1 sc1, .elem i2 n2 at2 ch2 sc2 =>
      if h1 : i1 = i2 then
        if h2 : n1 = n2 then
          if h3 : at1 = at2 then
            match decEqJNodeList ch1 ch2 with
            | isTrue h4 =>
                if h5 : sc1 = sc2 then
                  isTrue (by rw [h1, h2, h3, h4, h5])
                else isFalse (by intro h; cases h; exact h5 rfl)
            | isFalse h4 => isFalse (by intro h; cases h; exact h4 rfl)
          else isFalse (by intro h; cases h; exact h3 rfl)
        else isFalse (by intro h; cases h; exact h2 rfl)
      else isFalse (by intro h; cases h; exact h1 rfl)
  | .elem _ _ _ _ _, .text _ => isFalse (fun h => nomatch h)
  | .elem _ _ _ _ _, .exprChild _ => isFalse (fun h => nomatch h)
  | .text _, .elem _ _ _ _ _ => isFalse (fun h => nomatch h)
  | .text s1, .text s2 =>
      if h : s1 = s2 then isTrue (by rw [h])
      else isFalse (by intro hh; cases hh; exact h rfl)
  | .text _, .exprChild _ => isFalse (fun h => nomatch h)
  | .exprChild _, .elem _ _ _ _ _ => isFalse (fun h => nomatch h)
  | .exprChild _, .text _ => isFalse (fun h => nomatch h)
  | .exprChild c1, .exprChild c2 =>
      if h : c1 = c2 then isTrue (by rw [h])
      else isFalse (by intro hh; cases hh; exact h rfl)

/-- Decidable equality for lists of `JNode`. -/
def decEqJNodeList : (a b : List JNode) → Decidable (a = b)
  | [], [] => isTrue rfl
  | [], _ :: _ => isFalse (fun h => nomatch h)
  | _ :: _, [] => isFalse (fun h => nomatch h)
  | x :: xs, y :: ys =>
      match decEqJNode x y with
      | isTrue h1 =>
          match decEqJNodeList xs ys with
          | isTrue h2 => isTrue (by rw [h1, h2])
          | isFalse h2 => isFalse (by intro h; cases h; exact h2 rfl)
      | isFalse h1 => isFalse (by intro h; cases h; exact h1 rfl)

end

instance : DecidableEq JNode := decEqJNode

/-- The reference tag of a node (`none` for non-elements). -/
def JNode.idOf : JNode → Option Nat
  | .elem i _ _ _ _ => i
  | _ => none

/-- Reference equality of two nodes, as `===` behaves on the nodes this
program compares: two parsed elements are the same object iff their tags
agree; a clone or a freshly built node (tag `none`) equals nothing. -/
def refEq (a b : Option Nat) : Bool :=
  match a, b with
  | some x, some y => x == y
  | _, _ => false

/-- Top-level statement, as far as `traverse(program, {JSXElement})` looks:
a function declaration whose body returns one JSX tree, an expression
statement rooted in a JSX tree, or a statement containing no JSX. -/
inductive Stmt where
  | funcDecl (name : String) (ret : JNode)
  | exprStmt (root : JNode)
  | plain (src : String)
deriving DecidableEq

/-- The Babel `Program`: an ordered statement list. -/
structure Program where
  body : List Stmt
deriving DecidableEq

/-- `getTagName` (extractor line 97): the tag of a JSX element when its
opening name is a simple identifier, `null` otherwise. -/
def getTagName : JNode → Option String
  | .elem _ (.ident s) _ _ _ => some s
  | _ => none

/-- JavaScript `toLowerCase` on the ASCII tag names this program handles
(spelled out character-wise so that concrete instances reduce in the
kernel). -/
def lowerAscii (s : String) : String := ⟨s.data.map Char.toLower⟩

/-- `shouldSkipTag` (line 105): a nameless (non-identifier) element is
always skipped; otherwise the lowercased tag is looked up in `skipTags`. -/
def shouldSkipTag (n : JNode) (skipTags : List String) : Bool :=
  match getTagName n with
  | none => true
  | some tagName => skipTags.contains (lowerAscii tagName)

/-- The regex test `/^[A-Z]/` of line 117: first character in `A`–`Z`. -/
def startsUpper (s : String) : Bool :=
  match s.data with
  | [] => false
  | c :: _ => decide (c ≥ 'A') && decide (c ≤ 'Z')

/-- `isCustomComponent` (line 114): identifier-named and uppercase-initial. -/
def isCustomComponent (n : JNode) : Bool :=
  match getTagName n with
  | none => false
  | some tagName => startsUpper tagName

/-- The tag-name component of the fingerprint (lines 21–26): identifier
name, or generated code of a member expression, or `""`. -/
def fingerprintTag : JSXName → String
  | .ident s => s
  | .member c => c

/-- The `classNames` accumulation loop of lines 35–44: scan the attributes
in order; every `className` attribute with a string-literal value stores the
literal, one with an expression container stores the container's generated
code (braces included); later matches overwrite earlier ones. -/
def classNamesOf (attrs : List JSXAttr) : String :=
  attrs.foldl
    (fun acc a =>
      match a with
      | .attr nm v =>
          if nm = "className" then
            match v with
            | .str s => s
            | .exprC c => "\x7b" ++ c ++ "\x7d"
            | .empty => acc
          else acc
      | .spread _ => acc)
    ""

/-- `computeTreeFingerprint` (line 17): `tag:propsCount:childrenCount:classNames`.
Only defined behaviour on elements (the extractor only calls it there). -/
def computeTreeFingerprint : JNode → String
  | .elem _ nm attrs children _ =>
      fingerprintTag nm ++ ":" ++ toString attrs.length ++ ":"
        ++ toString children.length ++ ":" ++ classNamesOf attrs
  | _ => ""

/-- `ExtractorOptions` after the `{ ...DEFAULT_OPTIONS, ...options }` merge of
line 127 (the model works with fully resolved options; `fingerprintOptions`
is omitted because `computeTreeFingerprint` never reads it). -/
structure ExtractorOptions where
  minRepeats : Nat
  componentNameBase : String
  skipTags : List String

/-- `DEFAULT_OPTIONS` (line 83). -/
def DEFAULT_OPTIONS : ExtractorOptions :=
  { minRepeats := 2
    componentNameBase := "Extracted"
    skipTags :=
      ["svg", "clippath", "defs", "ellipse", "g", "lineargradient", "mask",
       "path", "pattern", "polygon", "polyline", "radialgradient", "rect",
       "stop", "circle", "image", "line", "text", "tspan", "use",
       "foreignobject"] }

mutual

/-- Pre-order sequence of `(element, enclosing element)` pairs produced by
Babel's `traverse` with a `JSXElement` visitor, rooted at one JSX tree.
`parent` is the nearest enclosing `JSXElement`, or `none` when the node's
`parentPath` is not a `JSXElement` (a statement-level parent). -/
def elemPairs (parent : Option JNode) : JNode → List (JNode × Option JNode)
  | .elem i nm attrs children sc =>
      (JNode.elem i nm attrs children sc, parent)
        :: elemPairsList (some (JNode.elem i nm attrs children sc)) children
  | .text _ => []
  | .exprChild _ => []

/-- Pre-order pairs of a child list, left to right. -/
def elemPairsList (parent : Option JNode) : List JNode → List (JNode × Option JNode)
  | [] => []
  | c :: cs => elemPairs parent c ++ elemPairsList parent cs

end

/-- JSX element pairs contributed by one statement: the JSX roots of a
statement sit under a non-`JSXElement` parent path. -/
def stmtPairs : Stmt → List (JNode × Option JNode)
  | .funcDecl _ ret => elemPairs none ret
  | .exprStmt root => elemPairs none root
  | .plain _ => []

/-- All `(element, enclosing element)` pairs of a program, in the order the
`traverse(program, { JSXElement(path) ... })` call of line 135 visits them. -/
def progPairs (p : Program) : List (JNode × Option JNode) :=
  (p.body.map stmtPairs).flatten

/-- The guard chain of the `JSXElement` visitor (lines 139–160), in source
order: skip if the node's own tag is skip-listed; skip if the parent path is
a JSX element with a skip-listed tag; skip custom components; skip nodes
whose parent path is not a JSX element. -/
def visitorKeeps (skipTags : List String) (n : JNode) (parent : Option JNode) : Bool :=
  if shouldSkipTag n skipTags then false
  else if (match parent with
           | some p => shouldSkipTag p skipTags
           | none => false) then false
  else if isCustomComponent n then false
  else
    match parent with
    | some _ => true
    | none => false

/-- The nodes the visitor adds to the `candidates` map, in visit order. -/
def keptNodes (prog : Program) (skipTags : List String) : List JNode :=
  ((progPairs prog).filter (fun pr => visitorKeeps skipTags pr.1 pr.2)).map Prod.fst

/-- One `candidates.get(fingerprint)!.push(node)` step (lines 166–169) on the
insertion-ordered entry list modelling the JavaScript `Map`. -/
def addOcc : List (String × List JNode) → String → JNode → List (String × List JNode)
  | [], fp, n => [(fp, [n])]
  | (k, v) :: rest, fp, n =>
      if k = fp then (k, v ++ [n]) :: rest
      else (k, v) :: addOcc rest fp n

/-- The `candidates` map after the traversal of lines 135–171, as its
insertion-ordered entry list. -/
def candidatesMap (prog : Program) (skipTags : List String) : List (String × List JNode) :=
  (keptNodes prog skipTags).foldl (fun m n => addOcc m (computeTreeFingerprint n) n) []

/-- `findParentPath` (line 217): locate the node (by reference) in a fresh
traversal of the program and return its parent path when that parent is a
JSX element. -/
def findParentPath (prog : Program) (node : JNode) : Option JNode :=
  match (progPairs prog).find? (fun pr => refEq pr.1.idOf node.idOf) with
  | some (_, parent) => parent
  | none => none

/-- `ComponentCandidate` (line 53).  The source field `example` is a reserved
word in Lean and is embedded as `exampleNode`. -/
structure ComponentCandidate where
  fingerprint : String
  occurrences : List JNode
  exampleNode : JNode
  count : Nat
  suggestedName : String
deriving DecidableEq

/-- The group-level exclusion of lines 185–192: some occurrence's
`findParentPath` is a JSX element that is a custom component. -/
def groupHasCustomParent (prog : Program) (occs : List JNode) : Bool :=
  occs.any (fun occ =>
    match findParentPath prog occ with
    | some p => isCustomComponent p
    | none => false)

/-- The filter loop of lines 176–205: walk the map entries in insertion
order; drop groups below `minRepeats`; drop groups with a custom-component
parent occurrence; number the surviving groups with `++componentCounter`.
(The `[]` occurrence-list case is unreachable: map entries are created
non-empty.) -/
def buildResults (prog : Program) (opts : ExtractorOptions) :
    List (String × List JNode) → Nat → List ComponentCandidate
  | [], _ => []
  | (_, []) :: rest, counter => buildResults prog opts rest counter
  | (fp, ex :: os) :: rest, counter =>
      if (ex :: os).length < opts.minRepeats then buildResults prog opts rest counter
      else if groupHasCustomParent prog (ex :: os) then buildResults prog opts rest counter
      else
        { fingerprint := fp
          occurrences := ex :: os
          exampleNode := ex
          count := (ex :: os).length
          suggestedName := opts.componentNameBase ++ toString (counter + 1) }
          :: buildResults prog opts rest (counter + 1)

/-- One insertion step of the stable descending-by-count sort. -/
def insertByCount (x : ComponentCandidate) :
    List ComponentCandidate → List ComponentCandidate
  | [] => [x]
  | y :: ys => if y.count ≤ x.count then x :: y :: ys else y :: insertByCount x ys

/-- `results.sort((a, b) => b.count - a.count)` (line 208).  ECMAScript
`Array.prototype.sort` is specified to be stable, so with this comparator the
result is the unique stable descending-by-count permutation; stable insertion
sort computes exactly that list. -/
def sortByCountDesc (l : List ComponentCandidate) : List ComponentCandidate :=
  l.foldr insertByCount []

/-- `findComponentCandidates` (line 123). -/
def findComponentCandidates (prog : Program) (opts : ExtractorOptions) :
    List ComponentCandidate :=
  sortByCountDesc (buildResults prog opts (candidatesMap prog opts.skipTags) 0)

mutual

/-- `t.cloneNode` (line 259): a deep copy — structurally identical, but every
node of the copy is a fresh object, so no reference tag survives. -/
def cloneNode : JNode → JNode
  | .elem _ nm attrs children sc => .elem none nm attrs (cloneList children) sc
  | .text s => .text s
  | .exprChild c => .exprChild c

/-- Deep copy of a child list. -/
def cloneList : List JNode → List JNode
  | [] => []
  | c :: cs => cloneNode c :: cloneList cs

end

/-- `extractComponentDeclaration` (line 249): a parameterless function
declaration named after the candidate, returning a deep clone of the
example occurrence. -/
def extractComponentDeclaration (candidate : ComponentCandidate) : Stmt :=
  .funcDecl candidate.suggestedName (cloneNode candidate.exampleNode)

/-- `occurrences.includes(path.node)` (line 275): the visited element is one
of the candidate's occurrence objects. -/
def refHit (i : Option Nat) (occs : List JNode) : Bool :=
  occs.any (fun o => refEq i o.idOf)

mutual

/-- Replacement step of `replaceOccurrencesWithComponent` inside one JSX
tree: the visitor replaces the first visited element contained in
`occurrences` and then calls `path.stop()` (line 284), which ends the whole
traversal — so at most one node is replaced.  Returns `none` when no
occurrence was found in this subtree. -/
def replaceFirstJ (occs : List JNode) (repl : JNode) : JNode → Option JNode
  | .elem i nm attrs children sc =>
      if refHit i occs then some repl
      else
        match replaceFirstL occs repl children with
        | some ch2 => some (.elem i nm attrs ch2 sc)
        | none => none
  | .text _ => none
  | .exprChild _ => none

/-- Replacement step over a child list, left to right, first hit only. -/
def replaceFirstL (occs : List JNode) (repl : JNode) : List JNode → Option (List JNode)
  | [] => none
  | c :: cs =>
      match replaceFirstJ occs repl c with
      | some c2 => some (c2 :: cs)
      | none =>
          match replaceFirstL occs repl cs with
          | some cs2 => some (c :: cs2)
          | none => none

end

/-- Replacement step over one statement. -/
def replaceFirstStmt (occs : List JNode) (repl : JNode) : Stmt → Option Stmt
  | .funcDecl n r =>
      match replaceFirstJ occs repl r with
      | some r2 => some (.funcDecl n r2)
      | none => none
  | .exprStmt r =>
      match replaceFirstJ occs repl r with
      | some r2 => some (.exprStmt r2)
      | none => none
  | .plain _ => none

/-- Replacement step over the statement list, in traversal order. -/
def replaceFirstBody (occs : List JNode) (repl : JNode) : List Stmt → Option (List Stmt)
  | [] => none
  | s :: ss =>
      match replaceFirstStmt occs repl s with
      | some s2 => some (s2 :: ss)
      | none =>
          match replaceFirstBody occs repl ss with
          | some ss2 => some (s :: ss2)
          | none => none

/-- `replaceOccurrencesWithComponent` (line 266): traverse the program; on
the first element that is one of the candidate's occurrences, replace it
with a fresh attribute-less self-closing element named after the candidate
(line 277), then `path.stop()` — the traversal, and with it the whole call,
ends after that single replacement.  If no occurrence is met, the program is
left unchanged. -/
def replaceOccurrencesWithComponent (prog : Program) (candidate : ComponentCandidate) :
    Program :=
  let repl : JNode := .elem none (.ident candidate.suggestedName) [] [] true
  match replaceFirstBody candidate.occurrences repl prog.body with
  | some body2 => { body := body2 }
  | none => prog

/-- One entry of `ExtractionResult.components` (line 301). -/
structure ComponentInfo where
  name : String
  count : Nat
  fingerprint : String
deriving DecidableEq

/-- `ExtractionResult` (line 297). -/
structure ExtractionResult where
  code : String
  components : List ComponentInfo
  changed : Bool
deriving DecidableEq

/-- The per-candidate loop of lines 337–352: prepend the declaration
(`program.body.unshift`), run the occurrence replacement, and record the
report entry; candidates are processed in list order. -/
def processCandidates (prog : Program) :
    List ComponentCandidate → Program × List ComponentInfo
  | [] => (prog, [])
  | c :: rest =>
      let prog1 : Program := { body := extractComponentDeclaration c :: prog.body }
      let prog2 := replaceOccurrencesWithComponent prog1 c
      let res := processCandidates prog2 rest
      (res.1,
        { name := c.suggestedName, count := c.count, fingerprint := c.fingerprint }
          :: res.2)

/-- Attribute-value rendering of the serializer stand-in. -/
def printAttrValue : AttrValue → String
  | .empty => ""
  | .str s => "=\"" ++ s ++ "\""
  | .exprC c => "=\x7b" ++ c ++ "\x7d"

/-- Attribute rendering of the serializer stand-in. -/
def printAttr : JSXAttr → String
  | .attr nm v => " " ++ nm ++ printAttrValue v
  | .spread c => " \x7b..." ++ c ++ "\x7d"

mutual

/-- Serializer stand-in for `@babel/generator` on one JSX tree.  No theorem
below depends on the exact text it produces: the only claim about output
text (C2) concerns the unchanged branch, which bypasses serialization. -/
def printNode : JNode → String
  | .elem _ nm attrs children sc =>
      if sc then
        "<" ++ fingerprintTag nm ++ String.join (attrs.map printAttr) ++ " />"
      else
        "<" ++ fingerprintTag nm ++ String.join (attrs.map printAttr) ++ ">"
          ++ printNodeList children ++ "</" ++ fingerprintTag nm ++ ">"
  | .text s => s
  | .exprChild c => "\x7b" ++ c ++ "\x7d"

/-- Serializer stand-in on a child list. -/
def printNodeList : List JNode → String
  | [] => ""
  | c :: cs => printNode c ++ printNodeList cs

end

/-- Serializer stand-in on one statement. -/
def printStmt : Stmt → String
  | .funcDecl n r => "function " ++ n ++ "() \x7b return " ++ printNode r ++ "; \x7d"
  | .exprStmt r => printNode r ++ ";"
  | .plain s => s

/-- Serializer stand-in on a program (the `generate(ast, ...)` of line 355). -/
def printProgram (p : Program) : String :=
  String.intercalate "\n" (p.body.map printStmt)

/-- `extractComponents` (line 313) after a successful parse: `code` is the
original input text, `ast` the program the parser produced from it.  With no
candidates the original string is returned as-is (lines 324–326); otherwise
the candidates are processed most-repeated-first and the mutated program is
serialized. -/
def extractComponents (code : String) (ast : Program) (options : ExtractorOptions) :
    ExtractionResult :=
  let candidates := findComponentCandidates ast options
  if candidates.length = 0 then
    { code := code, components := [], changed := false }
  else
    { code := printProgram (processCandidates ast candidates).1
      components := (processCandidates ast candidates).2
      changed := true }

/-- Outcome of the external `@babel/parser` call of line 317 on the input
text: the parsed program, or a thrown syntax error carried as its message.
The parser is an external collaborator; its outcome is an input of the
model. -/
inductive ParseOutcome where
  | parsed (ast : Program)
  | parseError (msg : String)

/-- `extractComponents` as its caller observes it: the `parse` call of line
317 is not wrapped in any `try`, so a parse exception propagates out of the
function before any candidate search or rewriting — no partial or rewritten
output can escape. -/
def extractComponentsRun (code : String) (p : ParseOutcome) (options : ExtractorOptions) :
    Except String ExtractionResult :=
  match p with
  | .parseError m => .error m
  | .parsed ast => .ok (extractComponents code ast options)

/-- Modelled from the spec: the componentization stage wrapper — the caller
of `extractComponents` (in `figma-react.ts`) is not among the sources here.
Per the spec's error taxonomy, a ParseFailure is fatal for the stage, the
original text is returned untouched, and the error is surfaced to the
caller. -/
def runComponentizationStage (code : String) (p : ParseOutcome)
    (options : ExtractorOptions) : ExtractionResult × Option String :=
  match extractComponentsRun code p options with
  | .ok r => (r, none)
  | .error m => ({ code := code, components := [], changed := false }, some m)

mutual

/-- Locate the element with reference `target` inside one JSX tree and
return its chain of enclosing elements, nearest first (`anc` accumulates the
elements entered so far). -/
def findAncestorsJ (anc : List JNode) (target : Option Nat) : JNode → Option (List JNode)
  | .elem i nm attrs children sc =>
      if refEq i target then some anc
      else findAncestorsL (JNode.elem i nm attrs children sc :: anc) target children
  | .text _ => none
  | .exprChild _ => none

/-- Ancestor search over a child list, left to right. -/
def findAncestorsL (anc : List JNode) (target : Option Nat) : List JNode → Option (List JNode)
  | [] => none
  | c :: cs =>
      match findAncestorsJ anc target c with
      | some r => some r
      | none => findAncestorsL anc target cs

end

/-- Ancestor search over one statement. -/
def stmtAncestors (target : Option Nat) : Stmt → Option (List JNode)
  | .funcDecl _ r => findAncestorsJ [] target r
  | .exprStmt r => findAncestorsJ [] target r
  | .plain _ => none

/-- Ancestor search over the statement list. -/
def bodyAncestors (target : Option Nat) : List Stmt → Option (List JNode)
  | [] => none
  | s :: ss =>
      match stmtAncestors target s with
      | some r => some r
      | none => bodyAncestors target ss

/-- The chain of JSX elements strictly enclosing `n` in the program, nearest
first (empty when `n` is a statement-level root or absent).  This is the
"ancestor chain" the spec's exclusion and nesting rules speak about. -/
def ancestorChain (prog : Program) (n : JNode) : List JNode :=
  match bodyAncestors n.idOf prog.body with
  | some r => r
  | none => []

/-- Number of attribute-less self-closing invocation references `<name />`
in a program — the shape `replaceOccurrencesWithComponent` inserts. -/
def countInvocationRefs (prog : Program) (name : String) : Nat :=
  ((progPairs prog).filter
    (fun pr =>
      match pr.1 with
      | .elem _ (.ident nm) [] [] true => nm == name
      | _ => false)).length

/-- Number of top-level function declarations named `name`. -/
def countDecls (prog : Program) (name : String) : Nat :=
  (prog.body.filter
    (fun s =>
      match s with
      | .funcDecl n _ => n == name
      | _ => false)).length

/-! ### Concrete input programs used by the claim theorems -/

/-- `<div className="card" />` with reference tag `i`. -/
def cardDiv (i : Nat) : JNode :=
  .elem (some i) (.ident "div") [.attr "className" (.str "card")] [] true

/-- `<section><div className="card"/><div className="card"/><div className="card"/></section>`:
one qualifying group with three occurrences. -/
def progCardRow : Program :=
  { body := [.exprStmt (.elem (some 0) (.ident "section") []
      [cardDiv 1, cardDiv 2, cardDiv 3] false)] }

/-- `<p className="a" />` with reference tag `i`. -/
def pElem (i : Nat) : JNode :=
  .elem (some i) (.ident "p") [.attr "className" (.str "a")] [] true

/-- `<q className="b" />` with reference tag `i`. -/
def qElem (i : Nat) : JNode :=
  .elem (some i) (.ident "q") [.attr "className" (.str "b")] [] true

/-- A section whose `p`-group (two occurrences) is discovered before its
`q`-group (three occurrences): discovery order and descending-count order
disagree. -/
def progTwoPThreeQ : Program :=
  { body := [.exprStmt (.elem (some 0) (.ident "section") []
      [pElem 1, pElem 2, qElem 3, qElem 4, qElem 5] false)] }

/-- `<span className="s" />` with reference tag `i`. -/
def spanS (i : Nat) : JNode :=
  .elem (some i) (.ident "span") [.attr "className" (.str "s")] [] true

/-- `<Wrapper><div><span className="s"/><span className="s"/></div></Wrapper>`:
the spans' ancestor chain contains the custom component `Wrapper`, but their
immediate parent is the plain `div`. -/
def progWrapperSpans : Program :=
  { body := [.exprStmt (.elem (some 0) (.ident "Wrapper") []
      [.elem (some 1) (.ident "div") [] [spanS 2, spanS 3] false] false)] }

/-- `<div className="x">inner</div>` with reference tag `i`. -/
def xDiv (i : Nat) (inner : JNode) : JNode :=
  .elem (some i) (.ident "div") [.attr "className" (.str "x")] [inner] false

/-- `<span className="y" />` with reference tag `i`. -/
def ySpan (i : Nat) : JNode :=
  .elem (some i) (.ident "span") [.attr "className" (.str "y")] [] true

/-- Two identical `div`s each wrapping an identical `span`: both groups
qualify, and every `span` occurrence is nested inside a `div` occurrence. -/
def progNestedPairs : Program :=
  { body := [.exprStmt (.elem (some 0) (.ident "a") []
      [xDiv 1 (ySpan 2), xDiv 3 (ySpan 4)] false)] }

/-- `<path />` with reference tag `i`. -/
def pathElem (i : Nat) : JNode :=
  .elem (some i) (.ident "path") [] [] true

/-- A `div` holding ten skip-listed `<path />` leaves (the spec's
Scenario B input). -/
def progSkipLeaves : Program :=
  { body := [.exprStmt (.elem (some 0) (.ident "div") []
      ((List.range 10).map (fun i => pathElem (i + 1))) false)] }

/-- A program with no JSX at all. -/
def progNoJsx : Program := { body := [.plain "const n = 1;"] }

/-! ### Infrastructure lemmas -/

/-- Unfolding lemma for the stable sort. -/
theorem sortByCountDesc_cons (x : ComponentCandidate) (xs : List ComponentCandidate) :
    sortByCountDesc (x :: xs) = insertByCount x (sortByCountDesc xs) := rfl

/-- Membership through one insertion step of the stable sort. -/
theorem mem_insertByCount {a x : ComponentCandidate} {l : List ComponentCandidate} :
    a ∈ insertByCount x l ↔ a = x ∨ a ∈ l := by
  induction l with
  | nil => simp [insertByCount]
  | cons y ys ih =>
      by_cases h : y.count ≤ x.count
      · simp only [insertByCount, if_pos h, List.mem_cons]
      · simp only [insertByCount, if_neg h, List.mem_cons, ih]
        tauto

/-- The sort does not change the set of candidates. -/
theorem mem_sortByCountDesc {a : ComponentCandidate} {l : List ComponentCandidate} :
    a ∈ sortByCountDesc l ↔ a ∈ l := by
  induction l with
  | nil => simp [sortByCountDesc]
  | cons x xs ih =>
      rw [sortByCountDesc_cons, mem_insertByCount, ih, List.mem_cons]

/-- Inserting into a descending-by-count list keeps it descending. -/
theorem pairwise_insertByCount {x : ComponentCandidate} {l : List ComponentCandidate}
    (h : l.Pairwise (fun a b => b.count ≤ a.count)) :
    (insertByCount x l).Pairwise (fun a b => b.count ≤ a.count) := by
  induction l with
  | nil => simp [insertByCount]
  | cons y ys ih =>
      rcases List.pairwise_cons.mp h with ⟨hy, hys⟩
      by_cases hc : y.count ≤ x.count
      · rw [insertByCount, if_pos hc]
        refine List.pairwise_cons.mpr ⟨?_, h⟩
        intro z hz
        rcases List.mem_cons.mp hz with rfl | hz'
        · exact hc
        · exact le_trans (hy z hz') hc
      · rw [insertByCount, if_neg hc]
        refine List.pairwise_cons.mpr ⟨?_, ih hys⟩
        intro z hz
        rcases mem_insertByCount.mp hz with rfl | hz'
        · omega
        · exact hy z hz'

/-- The sort's output is descending by count. -/
theorem sorted_sortByCountDesc (l : List ComponentCandidate) :
    (sortByCountDesc l).Pairwise (fun a b => b.count ≤ a.count) := by
  induction l with
  | nil => simp [sortByCountDesc]
  | cons x xs ih => rw [sortByCountDesc_cons]; exact pairwise_insertByCount ih

/-- Inserting an element only touches the filter slice of its own count. -/
theorem filter_insertByCount (x : ComponentCandidate) (l : List ComponentCandidate) (n : Nat) :
    (insertByCount x l).filter (fun c => c.count == n)
      = if x.count = n then x :: l.filter (fun c => c.count == n)
        else l.filter (fun c => c.count == n) := by
  induction l with
  | nil =>
      by_cases hx : x.count = n <;>
        simp [insertByCount, List.filter_cons, beq_iff_eq, hx]
  | cons y ys ih =>
      by_cases hc : y.count ≤ x.count
      · rw [insertByCount, if_pos hc, List.filter_cons]
        by_cases hx : x.count = n <;> simp [hx]
      · rw [insertByCount, if_neg hc, List.filter_cons, ih, List.filter_cons]
        by_cases hy : y.count = n
        · have hx : ¬ x.count = n := by omega
          simp [hx, hy]
        · by_cases hx : x.count = n <;> simp [hx, hy]

/-- Stability: sorting preserves each equal-count slice, in order. -/
theorem filter_sortByCountDesc (l : List ComponentCandidate) (n : Nat) :
    (sortByCountDesc l).filter (fun c => c.count == n)
      = l.filter (fun c => c.count == n) := by
  induction l with
  | nil => rfl
  | cons x xs ih =>
      rw [sortByCountDesc_cons, filter_insertByCount, List.filter_cons]
      by_cases hx : x.count = n <;> simp [hx, ih]

/-- Every candidate produced by the filter loop carries an occurrence list
that is one of the map's entries, and has passed the custom-parent group
check. -/
theorem mem_buildResults {prog : Program} {opts : ExtractorOptions}
    {entries : List (String × List JNode)} {k : Nat} {c : ComponentCandidate}
    (h : c ∈ buildResults prog opts entries k) :
    (∃ fp, (fp, c.occurrences) ∈ entries)
      ∧ groupHasCustomParent prog c.occurrences = false := by
  induction entries generalizing k with
  | nil => simp [buildResults] at h
  | cons e rest ih =>
      obtain ⟨fp, occs⟩ := e
      cases occs with
      | nil =>
          rw [buildResults] at h
          rcases ih h with ⟨⟨fp', h2⟩, h3⟩
          exact ⟨⟨fp', List.Mem.tail _ h2⟩, h3⟩
      | cons ex os =>
          rw [buildResults] at h
          by_cases h1 : (ex :: os).length < opts.minRepeats
          · rw [if_pos h1] at h
            rcases ih h with ⟨⟨fp', h2⟩, h3⟩
            exact ⟨⟨fp', List.Mem.tail _ h2⟩, h3⟩
          · rw [if_neg h1] at h
            by_cases h2 : groupHasCustomParent prog (ex :: os) = true
            · rw [if_pos h2] at h
              rcases ih h with ⟨⟨fp', h3⟩, h4⟩
              exact ⟨⟨fp', List.Mem.tail _ h3⟩, h4⟩
            · rw [if_neg h2] at h
              rcases List.mem_cons.mp h with rfl | h3
              · refine ⟨⟨fp, List.Mem.head _⟩, ?_⟩
                simpa using h2
              · rcases ih h3 with ⟨⟨fp', h4⟩, h5⟩
                exact ⟨⟨fp', List.Mem.tail _ h4⟩, h5⟩

/-- An occurrence found in a map entry after one `addOcc` step came from the
previous map or is the newly pushed node. -/
theorem addOcc_mem {m : List (String × List JNode)} {fp0 : String} {n0 : JNode}
    {fp : String} {occs : List JNode} {x : JNode}
    (h : (fp, occs) ∈ addOcc m fp0 n0) (hx : x ∈ occs) :
    (∃ occs0, (fp, occs0) ∈ m ∧ x ∈ occs0) ∨ x = n0 := by
  induction m with
  | nil =>
      simp only [addOcc, List.mem_singleton, Prod.mk.injEq] at h
      rcases h with ⟨rfl, rfl⟩
      simp only [List.mem_singleton] at hx
      right; exact hx
  | cons e rest ih =>
      obtain ⟨k, v⟩ := e
      rw [addOcc] at h
      by_cases hk : k = fp0
      · rw [if_pos hk] at h
        rcases List.mem_cons.mp h with h1 | h1
        · rcases Prod.mk.injEq .. ▸ h1 with ⟨rfl, rfl⟩
          rcases List.mem_append.mp hx with h2 | h2
          · exact Or.inl ⟨v, List.Mem.head _, h2⟩
          · simp only [List.mem_singleton] at h2
            exact Or.inr h2
        · exact Or.inl ⟨occs, List.Mem.tail _ h1, hx⟩
      · rw [if_neg hk] at h
        rcases List.mem_cons.mp h with h1 | h1
        · rcases Prod.mk.injEq .. ▸ h1 with ⟨rfl, rfl⟩
          exact Or.inl ⟨occs, List.Mem.head _, hx⟩
        · rcases ih h1 with ⟨occs0, hm, hx0⟩ | hr
          · exact Or.inl ⟨occs0, List.Mem.tail _ hm, hx0⟩
          · exact Or.inr hr

/-- An occurrence stored in the fingerprint map built over a node list came
from the initial map or from the list itself. -/
theorem foldl_addOcc_mem : ∀ {l : List JNode} {m : List (String × List JNode)}
    {fp : String} {occs : List JNode} {x : JNode},
    (fp, occs) ∈ l.foldl (fun m n => addOcc m (computeTreeFingerprint n) n) m →
    x ∈ occs →
    (∃ occs0, (fp, occs0) ∈ m ∧ x ∈ occs0) ∨ x ∈ l := by
  intro l
  induction l with
  | nil =>
      intro m fp occs x h hx
      exact Or.inl ⟨occs, h, hx⟩
  | cons n ns ih =>
      intro m fp occs x h hx
      rcases ih h hx with ⟨occs0, hm, hx0⟩ | hl
      · rcases addOcc_mem hm hx0 with ⟨occs1, hm1, hx1⟩ | rfl
        · exact Or.inl ⟨occs1, hm1, hx1⟩
        · exact Or.inr (List.Mem.head _)
      · exact Or.inr (List.Mem.tail _ hl)

/-- Every occurrence in the candidates map is a node the visitor kept. -/
theorem candidatesMap_occ_kept {prog : Program} {skips : List String}
    {fp : String} {occs : List JNode} {x : JNode}
    (h : (fp, occs) ∈ candidatesMap prog skips) (hx : x ∈ occs) :
    x ∈ keptNodes prog skips := by
  rcases foldl_addOcc_mem h hx with ⟨occs0, hm, _⟩ | hl
  · simp at hm
  · exact hl

/-- A kept node sits somewhere in the traversal, with a parent accepted by
the visitor's guard chain. -/
theorem keptNodes_spec {prog : Program} {skips : List String} {x : JNode}
    (h : x ∈ keptNodes prog skips) :
    ∃ parent, (x, parent) ∈ progPairs prog ∧ visitorKeeps skips x parent = true := by
  simp only [keptNodes, List.mem_map, List.mem_filter] at h
  rcases h with ⟨⟨x', parent⟩, ⟨hmem, hkeep⟩, rfl⟩
  exact ⟨parent, hmem, hkeep⟩

/-- What the visitor's guard chain (lines 139–160) guarantees about a kept
node: its own tag is not skip-listed, it is not a custom component, and its
parent path is a JSX element whose tag is not skip-listed. -/
theorem visitorKeeps_true {skips : List String} {n : JNode} {parent : Option JNode}
    (h : visitorKeeps skips n parent = true) :
    shouldSkipTag n skips = false ∧ isCustomComponent n = false ∧
      ∃ p, parent = some p ∧ shouldSkipTag p skips = false := by
  rcases parent with _ | p
  · exfalso
    revert h
    simp [visitorKeeps]
  · by_cases h1 : shouldSkipTag n skips = true
    · simp [visitorKeeps, h1] at h
    · by_cases h2 : shouldSkipTag p skips = true
      · simp [visitorKeeps, h1, h2] at h
      · by_cases h3 : isCustomComponent n = true
        · simp [visitorKeeps, h1, h2, h3] at h
        · exact ⟨Bool.not_eq_true _ ▸ h1, Bool.not_eq_true _ ▸ h3,
            p, rfl, Bool.not_eq_true _ ▸ h2⟩

/-- Combined: every occurrence of every returned candidate group was kept by
the visitor, with its guard facts. -/
theorem candidate_occ_spec {prog : Program} {opts : ExtractorOptions}
    {c : ComponentCandidate} {occ : JNode}
    (hc : c ∈ findComponentCandidates prog opts) (ho : occ ∈ c.occurrences) :
    shouldSkipTag occ opts.skipTags = false ∧ isCustomComponent occ = false ∧
      ∃ p, (occ, some p) ∈ progPairs prog ∧ shouldSkipTag p opts.skipTags = false := by
  have hb := mem_sortByCountDesc.mp hc
  rcases mem_buildResults hb with ⟨⟨fp, hmap⟩, _⟩
  have hkept := candidatesMap_occ_kept hmap ho
  rcases keptNodes_spec hkept with ⟨parent, hpair, hkeep⟩
  rcases visitorKeeps_true hkeep with ⟨hskip, hcustom, p, rfl, hpskip⟩
  exact ⟨hskip, hcustom, p, hpair, hpskip⟩

/-- The names `base+(k+1), base+(k+2), …` — what consecutive assignment of
the synthetic counter from value `k` produces for `m` groups. -/
def syntheticNames (base : String) (k : Nat) : Nat → List String
  | 0 => []
  | m + 1 => (base ++ toString (k + 1)) :: syntheticNames base (k + 1) m

/-! ### Claim theorems -/

/-- C1: Count conservation FAILS in the code.  On `progCardRow` — one
qualifying group with three occurrences of `<div className="card" />` —
the extraction reports the group with count 3 and inserts one declaration,
but the rewritten program contains exactly ONE self-closing `<Extracted1 />`
invocation reference, not three: `replaceOccurrencesWithComponent` calls
`path.stop()` right after the first `replaceWith`, ending the traversal, so
only the first occurrence of the group is ever replaced. -/
theorem cardRow_replacement_replaces_only_first :
    (findComponentCandidates progCardRow DEFAULT_OPTIONS).map ComponentCandidate.count
        = [3] ∧
    (extractComponents "SRC" progCardRow DEFAULT_OPTIONS).components.map ComponentInfo.count
        = [3] ∧
    countDecls (processCandidates progCardRow
        (findComponentCandidates progCardRow DEFAULT_OPTIONS)).1 "Extracted1" = 1 ∧
    countInvocationRefs (processCandidates progCardRow
        (findComponentCandidates progCardRow DEFAULT_OPTIONS)).1 "Extracted1" = 1 :=
  ⟨rfl, rfl, rfl, rfl⟩

/-- C2: when `findComponentCandidates` yields no qualifying group,
`extractComponents` returns `changed = false`, an empty component list, and
the original input string itself (lines 324–326 return `code` without
re-serializing). -/
theorem extractComponents_noop_returns_original (code : String) (ast : Program)
    (opts : ExtractorOptions) (h : findComponentCandidates ast opts = []) :
    extractComponents code ast opts
      = { code := code, components := [], changed := false } := by
  simp [extractComponents, h]

/-- Witness for C2: a program with no JSX yields no candidates and the
original text comes back verbatim. -/
theorem extractComponents_noop_returns_original_witness :
    extractComponents "const n = 1;" progNoJsx DEFAULT_OPTIONS
      = { code := "const n = 1;", components := [], changed := false } :=
  extractComponents_noop_returns_original "const n = 1;" progNoJsx DEFAULT_OPTIONS rfl

/-- C3 counterexample: the claim says a group is dropped when ANY ancestor
of an occurrence is a custom-unit reference.  In `progWrapperSpans` the two
`span` occurrences sit under a plain `div` whose own parent is the custom
component `Wrapper`; their ancestor chain contains a custom component, yet
`findComponentCandidates` returns the span group — the code only consults
the immediate parent (`findParentPath`). -/
theorem wrapperSpans_group_survives_custom_ancestor :
    (findComponentCandidates progWrapperSpans DEFAULT_OPTIONS).map
        ComponentCandidate.occurrences = [[spanS 2, spanS 3]] ∧
    (ancestorChain progWrapperSpans (spanS 2)).any isCustomComponent = true :=
  ⟨rfl, rfl⟩

/-- C3 amended: the exclusion the code actually enforces — no returned group
has an occurrence whose IMMEDIATE parent (the `findParentPath` result) is a
custom-unit reference; custom components deeper in the ancestor chain do not
drop a group. -/
theorem candidates_immediate_parent_not_custom (prog : Program)
    (opts : ExtractorOptions) (c : ComponentCandidate)
    (hc : c ∈ findComponentCandidates prog opts) :
    groupHasCustomParent prog c.occurrences = false :=
  (mem_buildResults (mem_sortByCountDesc.mp hc)).2

/-- Witness for the amended C3, on the span group of `progWrapperSpans`. -/
theorem candidates_immediate_parent_not_custom_witness :
    groupHasCustomParent progWrapperSpans
      (ComponentCandidate.mk "span:1:0:s" [spanS 2, spanS 3] (spanS 2) 2
        "Extracted1").occurrences = false :=
  candidates_immediate_parent_not_custom progWrapperSpans DEFAULT_OPTIONS
    (ComponentCandidate.mk "span:1:0:s" [spanS 2, spanS 3] (spanS 2) 2 "Extracted1")
    (by decide)

/-- C4 counterexample: `findComponentCandidates` has no nested-extraction
exclusion.  In `progNestedPairs` both the `div` group and the `span` group
are returned, although every `span` occurrence's ancestor chain contains a
`div` occurrence of the other returned group. -/
theorem nestedPairs_both_groups_returned :
    (findComponentCandidates progNestedPairs DEFAULT_OPTIONS).map
        ComponentCandidate.occurrences
      = [[xDiv 1 (ySpan 2), xDiv 3 (ySpan 4)], [ySpan 2, ySpan 4]] ∧
    xDiv 1 (ySpan 2) ∈ ancestorChain progNestedPairs (ySpan 2) :=
  ⟨rfl, by decide⟩

/-- C4 amended: the nesting-related guarantee the code does give — no
returned group contains an occurrence that is itself a custom-unit
reference (so an already-extracted unit invocation is never swept into a
group); occurrences nested inside other extractable occurrences are NOT
excluded. -/
theorem candidate_occurrences_not_custom (prog : Program) (opts : ExtractorOptions)
    (c : ComponentCandidate) (occ : JNode)
    (hc : c ∈ findComponentCandidates prog opts) (ho : occ ∈ c.occurrences) :
    isCustomComponent occ = false :=
  (candidate_occ_spec hc ho).2.1

/-- Witness for the amended C4, on a `div` occurrence of `progNestedPairs`. -/
theorem candidate_occurrences_not_custom_witness :
    isCustomComponent (xDiv 1 (ySpan 2)) = false :=
  candidate_occurrences_not_custom progNestedPairs DEFAULT_OPTIONS
    (ComponentCandidate.mk "div:1:1:x" [xDiv 1 (ySpan 2), xDiv 3 (ySpan 4)]
      (xDiv 1 (ySpan 2)) 2 "Extracted1")
    (xDiv 1 (ySpan 2)) (by decide) (by decide)

/-- C5 counterexample: in `progTwoPThreeQ` the two-occurrence `p` group is
discovered first, the three-occurrence `q` group later.  The returned list
is processed most-repeated-first, yet its FIRST element bears the name
`Extracted2` and its second `Extracted1`: the counter is advanced during
the filter pass over the map, i.e. in first-discovery order, BEFORE the
descending-count sort — not in processing order. -/
theorem twoPThreeQ_names_follow_discovery_order :
    (findComponentCandidates progTwoPThreeQ DEFAULT_OPTIONS).map
        (fun c => (c.suggestedName, c.count))
      = [("Extracted2", 3), ("Extracted1", 2)] := rfl

/-- C5 amended: the synthetic names `componentNameBase+(counter+1), …` are
assigned consecutively in the order groups pass the filter during the map
iteration — the first-discovery order of fingerprints — before the sort. -/
theorem buildResults_names_in_discovery_order (prog : Program)
    (opts : ExtractorOptions) (entries : List (String × List JNode)) (k : Nat) :
    (buildResults prog opts entries k).map ComponentCandidate.suggestedName
      = syntheticNames opts.componentNameBase k
          (buildResults prog opts entries k).length := by
  induction entries generalizing k with
  | nil => rfl
  | cons e rest ih =>
      obtain ⟨fp, occs⟩ := e
      cases occs with
      | nil => rw [buildResults]; exact ih k
      | cons ex os =>
          rw [buildResults]
          by_cases h1 : (ex :: os).length < opts.minRepeats
          · rw [if_pos h1]; exact ih k
          · rw [if_neg h1]
            by_cases h2 : groupHasCustomParent prog (ex :: os) = true
            · rw [if_pos h2]; exact ih k
            · rw [if_neg h2]
              simp only [List.map_cons, List.length_cons, syntheticNames]
              rw [ih (k + 1)]

/-- C6: the returned candidate list is descending by occurrence count, and
sorting is stable: for every count value, the slice of candidates with that
count appears in exactly the pre-sort order — the first-discovery order in
which the filter pass emitted them. -/
theorem findComponentCandidates_sorted_and_stable (prog : Program)
    (opts : ExtractorOptions) :
    (findComponentCandidates prog opts).Pairwise (fun a b => b.count ≤ a.count) ∧
    ∀ n, (findComponentCandidates prog opts).filter (fun c => c.count == n)
        = (buildResults prog opts (candidatesMap prog opts.skipTags) 0).filter
            (fun c => c.count == n) :=
  ⟨sorted_sortByCountDesc _, fun n => filter_sortByCountDesc _ n⟩

/-- C7: the fingerprint is content-blind — two elements agreeing on the
fingerprint's tag component, attribute count, child count and `className`
token get the same key, whatever their children's text or expression
payloads (and whatever their reference tags and self-closing flags). -/
theorem computeTreeFingerprint_content_blind
    (i1 i2 : Option Nat) (nm1 nm2 : JSXName) (as1 as2 : List JSXAttr)
    (ch1 ch2 : List JNode) (sc1 sc2 : Bool)
    (htag : fingerprintTag nm1 = fingerprintTag nm2)
    (hattrs : as1.length = as2.length)
    (hch : ch1.length = ch2.length)
    (hcls : classNamesOf as1 = classNamesOf as2) :
    computeTreeFingerprint (.elem i1 nm1 as1 ch1 sc1)
      = computeTreeFingerprint (.elem i2 nm2 as2 ch2 sc2) := by
  simp [computeTreeFingerprint, htag, hattrs, hch, hcls]

/-- Witness for C7: same shape, different leaf text and expression payload,
same fingerprint. -/
theorem computeTreeFingerprint_content_blind_witness :
    computeTreeFingerprint
        (.elem (some 1) (.ident "div") [.attr "className" (.str "row")]
          [.text "A", .exprChild "user.name"] false)
      = computeTreeFingerprint
        (.elem (some 2) (.ident "div") [.attr "className" (.str "row")]
          [.text "B", .exprChild "user.age"] false) :=
  computeTreeFingerprint_content_blind _ _ _ _ _ _ _ _ _ _ rfl rfl rfl rfl

/-- C8: on a malformed input the `parse` call of line 317 throws before any
rewriting, so `extractComponents` yields no (partial) output at all, and the
stage returns the original text untouched with the error surfaced. -/
theorem parse_failure_returns_original (code msg : String) (opts : ExtractorOptions) :
    extractComponentsRun code (.parseError msg) opts = .error msg ∧
    runComponentizationStage code (.parseError msg) opts
      = ({ code := code, components := [], changed := false }, some msg) :=
  ⟨rfl, rfl⟩

/-- C9: no occurrence of a returned candidate group has a skip-listed tag,
and each one's traversal parent is a JSX element without a skip-listed tag;
moreover the spec's Scenario B — a skip-listed leaf repeated ten times —
produces zero groups and an unchanged result. -/
theorem skip_tag_never_in_candidates :
    (∀ (prog : Program) (opts : ExtractorOptions) (c : ComponentCandidate)
        (occ : JNode),
        c ∈ findComponentCandidates prog opts → occ ∈ c.occurrences →
        shouldSkipTag occ opts.skipTags = false ∧
          ∃ p, (occ, some p) ∈ progPairs prog ∧
            shouldSkipTag p opts.skipTags = false) ∧
    findComponentCandidates progSkipLeaves DEFAULT_OPTIONS = [] ∧
    extractComponents "LEAVES" progSkipLeaves DEFAULT_OPTIONS
      = { code := "LEAVES", components := [], changed := false } := by
  refine ⟨?_, rfl, rfl⟩
  intro prog opts c occ hc ho
  rcases candidate_occ_spec hc ho with ⟨h1, _, p, hp, h2⟩
  exact ⟨h1, p, hp, h2⟩

/-- Witness for C9, on a `q` occurrence of `progTwoPThreeQ`. -/
theorem skip_tag_never_in_candidates_witness :
    shouldSkipTag (qElem 3) DEFAULT_OPTIONS.skipTags = false ∧
      ∃ p, (qElem 3, some p) ∈ progPairs progTwoPThreeQ ∧
        shouldSkipTag p DEFAULT_OPTIONS.skipTags = false :=
  skip_tag_never_in_candidates.1 progTwoPThreeQ DEFAULT_OPTIONS
    (ComponentCandidate.mk "q:1:0:b" [qElem 3, qElem 4, qElem 5] (qElem 3) 3
      "Extracted2")
    (qElem 3) (by decide) (by decide)

/-- C10: an element whose opening name is not a simple identifier
(`getTagName` = `null`) never appears in a candidate group — such elements
are unconditionally skipped — and skip-tag membership is tested on the
lowercased tag name. -/
theorem memberExpr_skipped_and_lookup_lowercased :
    (∀ (prog : Program) (opts : ExtractorOptions) (c : ComponentCandidate)
        (occ : JNode),
        c ∈ findComponentCandidates prog opts → occ ∈ c.occurrences →
        getTagName occ ≠ none) ∧
    (∀ (i : Option Nat) (s : String) (attrs : List JSXAttr)
        (children : List JNode) (sc : Bool) (skips : List String),
        shouldSkipTag (.elem i (.ident s) attrs children sc) skips
          = skips.contains (lowerAscii s)) := by
  constructor
  · intro prog opts c occ hc ho hnone
    rcases candidate_occ_spec hc ho with ⟨h1, _, _⟩
    simp [shouldSkipTag, hnone] at h1
  · intro i s attrs children sc skips
    rfl

/-- Witness for C10, on a `p` occurrence of `progTwoPThreeQ`. -/
theorem memberExpr_skipped_witness :
    getTagName (pElem 1) ≠ none :=
  memberExpr_skipped_and_lookup_lowercased.1 progTwoPThreeQ DEFAULT_OPTIONS
    (ComponentCandidate.mk "p:1:0:a" [pElem 1, pElem 2] (pElem 1) 2 "Extracted1")
    (pElem 1) (by decide) (by decide)
